import Mathlib

/-!
Verification development for the decline-curve-analysis pipeline
(`curve_fit_tutorial.py`).

The program preprocesses per-well production records (filter invalid rates,
anchor each well at its earliest record date, derive elapsed days online),
estimates an initial rate as the peak of the first three records, and fits
two decline models (exponential and hyperbolic) with box bounds via a
bounded least-squares solver, per well from a hardcoded list of well APIs.

Embedding conventions:
 - A dataframe row is a `RawRecord`: the well API (`API_WELLNO`, a float in
   the source, modelled as a rational), the report date (`ReportDate`,
   modelled as whole days since an epoch, an integer — the data is at day
   granularity, so `.dt.days` on a date difference is the exact integer
   difference), and the selected product column ('Oil'), whose value may be
   NaN/null (`Option`).
 - Float data values are modelled as rationals (every finite float is a
   rational); NaN/null is `none`.
 - The model evaluation functions work over real numbers; Python's `**`
   with a positive base is real exponentiation (`Real.rpow`), `np.exp` is
   `Real.exp`.  Python's scalar float division raises on a zero divisor, so
   a division-checked variant of the hyperbolic evaluator returns `Option`.
 - The bounded least-squares solver is `scipy.optimize.curve_fit`, which is
   not part of this repository's sources; where a claim depends on it, it
   is modelled from the spec (each such definition says so in its doc
   comment).
-/

/-- A raw dataframe row: well API number, report date (whole days since an
epoch), and the selected product rate column, which may be NaN/null. -/
structure RawRecord where
  api : ℚ
  reportDate : ℤ
  rate : Option ℚ
deriving DecidableEq, Repr

/-- A row after the pipeline's preprocessing: the rate is known non-null,
and the row carries its group-wise `Online_Date` and `Days_Online` columns. -/
structure AnnRecord where
  api : ℚ
  reportDate : ℤ
  rate : ℚ
  online : ℤ
  elapsed : ℤ
deriving DecidableEq, Repr

/-- `remove_nan_and_zeroes_from_columns`: keep exactly the rows whose value
in the selected column is non-null and strictly positive
(`df[(df[variable].notnull()) & (df[variable]>0)]`); a pure filter that
preserves the original row order. -/
def remove_nan_and_zeroes_from_columns (df : List RawRecord) : List RawRecord :=
  df.filter fun r =>
    match r.rate with
    | some v => decide (0 < v)
    | none => false

/-- `get_min_or_max_value_in_column_by_group` at the instantiation the
pipeline uses (`groupby('API_WELLNO')['ReportDate'].transform('min')`): the
minimum report date among the rows sharing the given API number. -/
def get_min_or_max_value_in_column_by_group (df : List RawRecord) (api : ℚ) : WithTop ℤ :=
  ((df.filter fun s => decide (s.api = api)).map (·.reportDate)).minimum

/-- `generate_time_delta_column`: difference in whole days between the
record date and the online date (`(df[time]-df[online]).dt.days`; both
columns are day-granularity dates, so the difference is exact). -/
def generate_time_delta_column (reportDate online : ℤ) : ℤ :=
  reportDate - online

/-- The pipeline's annotation steps on the filtered rows: attach each row's
group-minimum `Online_Date` and its `Days_Online` delta.  Rows reaching
this point have a non-null rate (the `none` branch is dead after
`remove_nan_and_zeroes_from_columns`). -/
def annotateRecords (df : List RawRecord) : List AnnRecord :=
  df.filterMap fun r =>
    match r.rate, get_min_or_max_value_in_column_by_group df r.api with
    | some v, (m : ℤ) => some ⟨r.api, r.reportDate, v, m, generate_time_delta_column r.reportDate m⟩
    | _, _ => none

/-- Sorting a well's rows by `ReportDate` ascending
(`df.sort_values(by=date_column)`). -/
def sortByDate (df : List AnnRecord) : List AnnRecord :=
  df.insertionSort fun a b => a.reportDate ≤ b.reportDate

/-- Sorting a well's rows by elapsed time ascending (the order the spec
describes for the initial-rate estimator). -/
def sortByElapsed (df : List AnnRecord) : List AnnRecord :=
  df.insertionSort fun a b => a.elapsed ≤ b.elapsed

/-- `get_max_initial_production`: sort the rows by report date ascending,
take the first `n` rows (`df.head(n)`, a count of rows), and return the
maximum rate among them (`⊥`/NaN when there are no rows). -/
def get_max_initial_production (df : List AnnRecord) (n : ℕ) : WithBot ℚ :=
  (((sortByDate df).take n).map (·.rate)).maximum

/-- The driver's initial-rate estimate: `get_max_initial_production(df, 3, …)`. -/
def mainQiEstimate (df : List AnnRecord) : WithBot ℚ :=
  get_max_initial_production df 3

/-- The spec's error taxonomy for one (entity, variant) fit. -/
inductive FitError where
  | insufficientData
  | boundsViolation
  | convergence
  | numericalInstability
deriving DecidableEq, Repr

/-- Modelled from the spec: the input-validation step of the
BoundedLeastSquaresSolver, which is a library call (`scipy.optimize.curve_fit`)
rather than repository source.  Per the spec's error taxonomy, a fit fails
with `InsufficientDataError` when the entity has fewer distinct elapsed-time
points than the model variant's parameter count. -/
def fitGuard (nparams : ℕ) (df : List AnnRecord) : Except FitError Unit :=
  if ((df.map (·.elapsed)).dedup).length < nparams then
    Except.error FitError.insufficientData
  else
    Except.ok ()

/-- What the driver's loop body produces for one well when both fits
succeed: the API and the qi estimate used as the fits' upper bound. -/
structure EntityResult where
  api : ℚ
  qi : WithBot ℚ
deriving DecidableEq, Repr

/-- One iteration of the driver's loop: compute the qi estimate, run the
exponential fit (2 parameters), then the hyperbolic fit (3 parameters).
The source wraps neither `curve_fit` call in a `try`, so a fit failure
escapes the loop body as an exception (`Except.error`). -/
def processWell (api : ℚ) (df : List AnnRecord) : Except FitError EntityResult :=
  let qi := mainQiEstimate df
  match fitGuard 2 df with
  | Except.error e => Except.error e
  | Except.ok _ =>
    match fitGuard 3 df with
    | Except.error e => Except.error e
    | Except.ok _ => Except.ok ⟨api, qi⟩

/-- The driver's hardcoded list of well APIs. -/
def uniqueWellAPIsList : List ℚ :=
  [33023013930000, 33105039980000, 33105039970000, 33013018230000, 33013018220000]

/-- Day numbers (days since 1970-01-01) for the driver's online-date window:
2016-01-01 is day 16801 and 2016-06-01 is day 16953. -/
def onlineWindowLo : ℤ := 16801

def onlineWindowHi : ℤ := 16953

/-- The driver's preprocessing: filter invalid rates, annotate with the
group-minimum online date and elapsed days, and keep wells that came online
between 2016-01-01 and 2016-06-01 inclusive. -/
def prepare (raw : List RawRecord) : List AnnRecord :=
  (annotateRecords (remove_nan_and_zeroes_from_columns raw)).filter fun a =>
    decide (onlineWindowLo ≤ a.online) && decide (a.online ≤ onlineWindowHi)

/-- The driver's per-well subset: the prepared rows with the given API. -/
def entitySubset (raw : List RawRecord) (api : ℚ) : List AnnRecord :=
  (prepare raw).filter fun a => decide (a.api = api)

/-- The driver (`main`): loop over the hardcoded APIs, fitting both models
for each.  An exception raised inside the loop body is not caught anywhere,
so it aborts the whole loop: `Except`'s bind short-circuits exactly as the
uncaught Python exception does. -/
def mainPipeline (raw : List RawRecord) : Except FitError (List EntityResult) :=
  uniqueWellAPIsList.mapM fun api => processWell api (entitySubset raw api)

/-- `exponential_equation(t, qi, di) = qi*np.exp(-di*t)`, over the reals. -/
noncomputable def exponential_equation (t qi di : ℝ) : ℝ :=
  qi * Real.exp (-di * t)

/-- `hyperbolic_equation(t, qi, b, di) = qi/((1.0+b*di*t)**(1.0/b))`, over
the reals (`**` with a positive base is real exponentiation). -/
noncomputable def hyperbolic_equation (t qi b di : ℝ) : ℝ :=
  qi / (1 + b * di * t) ^ (1 / b)

/-- The exponential closed form exactly as the spec writes it:
`Exponential(t; qi, di) = qi · e^(−di·t)`. -/
noncomputable def Exponential_spec (t qi di : ℝ) : ℝ :=
  qi * Real.exp (-(di * t))

/-- The hyperbolic closed form exactly as the spec writes it:
`Hyperbolic(t; qi, b, di) = qi / (1 + b·di·t)^(1/b)`. -/
noncomputable def Hyperbolic_spec (t qi b di : ℝ) : ℝ :=
  qi / (1 + b * di * t) ^ (1 / b)

/-- Python scalar float division: raises `ZeroDivisionError` (no value) on a
zero divisor. -/
noncomputable def pydiv (x y : ℝ) : Option ℝ :=
  if y = 0 then none else some (x / y)

/-- `hyperbolic_equation` with its two divisions checked as Python checks
them: the exponent `1.0/b` first, then the outer division. -/
noncomputable def hyperbolic_equation_py (t qi b di : ℝ) : Option ℝ :=
  match pydiv 1 b with
  | none => none
  | some e => pydiv qi ((1 + b * di * t) ^ e)

/-- Clamping one component into its `[lo, hi]` interval. -/
noncomputable def clip (lo hi x : ℝ) : ℝ :=
  max lo (min x hi)

/-- Modelled from the spec: the iteration skeleton of the
BoundedLeastSquaresSolver (a library call, `scipy.optimize.curve_fit`, not
repository source).  The initial guess is clamped into the box before the
first iteration (spec step 1 and the `BoundsViolationError` policy); each
iteration either accepts the clamped step `clip(p + Δp, lo, hi)` (spec
steps 4–5) or keeps the previous point.  The numerical computation of each
proposed step `Δp` (spec steps 2–3) is abstracted as an arbitrary list of
proposed steps paired with accept/reject decisions, so anything proved for
all step sequences holds for the actual damped-least-squares steps. -/
noncomputable def lmIterate {k : ℕ} (lo hi : Fin k → ℝ)
    (steps : List ((Fin k → ℝ) × Bool)) (p0 : Fin k → ℝ) : Fin k → ℝ :=
  steps.foldl
    (fun p s => if s.2 then (fun i => clip (lo i) (hi i) (p i + s.1 i)) else p)
    (fun i => clip (lo i) (hi i) (p0 i))

/-- Lower bounds of the exponential fit, from `bounds=(0, [qi,20])`: the
scalar `0` broadcasts to every component. -/
def expLower : Fin 2 → ℝ := fun _ => 0

/-- Lower bounds of the hyperbolic fit, from `bounds=(0, [qi,2,20])`. -/
def hypLower : Fin 3 → ℝ := fun _ => 0

/-- Upper bounds of the exponential fit, `[qi, 20]`, with `qi` the driver's
initial-rate estimate (a data value, hence a rational). -/
noncomputable def mainExpUpper (q : ℚ) : Fin 2 → ℝ := ![(q : ℝ), 20]

/-- Upper bounds of the hyperbolic fit, `[qi, 2, 20]`. -/
noncomputable def mainHypUpper (q : ℚ) : Fin 3 → ℝ := ![(q : ℝ), 2, 20]

/-- Input with one well (the first hardcoded API) holding a single
observation dated 2016-01-15 (day 16815). -/
def c1Raw : List RawRecord :=
  [⟨33023013930000, 16815, some 100⟩]

/-- Input where the first hardcoded API has a single observation (its fits
cannot proceed) while the second hardcoded API has three observations on
distinct days, enough for both fits. -/
def c3Raw : List RawRecord :=
  [⟨33023013930000, 16815, some 50⟩,
   ⟨33105039980000, 16820, some 100⟩,
   ⟨33105039980000, 16850, some 80⟩,
   ⟨33105039980000, 16880, some 60⟩]

/-- Two observations of one entity: the earliest dated 2016-01-15
(day 16815) and a later one dated 2016-02-14 (day 16845). -/
def c8ScenarioDf : List RawRecord :=
  [⟨1, 16815, some 100⟩, ⟨1, 16845, some 90⟩]

/-- A concrete two-row per-entity window (annotated rows of one well). -/
def c7WitnessDf : List AnnRecord :=
  [⟨1, 16815, 100, 16815, 0⟩, ⟨1, 16845, 90, 16815, 30⟩]

/-- A concrete raw-record list with one valid and one null-rate row. -/
def c9WitnessDf : List RawRecord :=
  [⟨1, 0, some 5⟩, ⟨1, 1, none⟩]

/-- A concrete two-row per-entity window, shorter than the window size 5
used against it. -/
def c10WitnessDf : List AnnRecord :=
  [⟨1, 10, 7, 10, 0⟩, ⟨1, 40, 9, 10, 30⟩]

theorem perm_maximum {α : Type*} [LinearOrder α] {l₁ l₂ : List α} (h : l₁.Perm l₂) :
    l₁.maximum = l₂.maximum := by
  rcases hm : l₂.maximum with _ | q
  · have h2 : l₂ = [] := List.maximum_eq_bot.mp hm
    have h1 : l₁ = [] := List.length_eq_zero.mp (by rw [h.length_eq, h2]; rfl)
    rw [h1]
    rfl
  · have hq := List.maximum_eq_coe_iff.mp hm
    exact List.maximum_eq_coe_iff.mpr
      ⟨h.mem_iff.mpr hq.1, fun a ha => hq.2 a (h.mem_iff.mp ha)⟩

theorem take_ne_nil_of_ne_nil {α : Type*} {l : List α} {n : ℕ} (hl : l ≠ []) (hn : 0 < n) :
    l.take n ≠ [] := by
  cases l with
  | nil => exact absurd rfl hl
  | cons a t =>
    cases n with
    | zero => exact absurd hn (by simp)
    | succ m => simp [List.take]

/-- C9: the filter keeps exactly the rows with a non-null, strictly positive
rate: it is a subsequence of the input (order preserved), every kept row
satisfies the predicate, every input row satisfying it is kept, and kept
rows keep their multiplicity.  (The Lean function is pure, as is the pandas
boolean-mask filter: the input dataframe is not mutated.) -/
theorem c9_record_filter (df : List RawRecord) :
    (remove_nan_and_zeroes_from_columns df).Sublist df ∧
    (∀ r ∈ remove_nan_and_zeroes_from_columns df, ∃ v, r.rate = some v ∧ 0 < v) ∧
    (∀ r ∈ df, (∃ v, r.rate = some v ∧ 0 < v) → r ∈ remove_nan_and_zeroes_from_columns df) ∧
    (∀ r : RawRecord, (∃ v, r.rate = some v ∧ 0 < v) →
      (remove_nan_and_zeroes_from_columns df).count r = df.count r) := by
  have hpred : ∀ r : RawRecord,
      (match r.rate with | some v => decide (0 < v) | none => false) = true ↔
        ∃ v, r.rate = some v ∧ 0 < v := by
    intro r
    rcases hr : r.rate with _ | v <;> simp [hr]
  refine ⟨List.filter_sublist df, ?_, ?_, ?_⟩
  · intro r hr
    rw [remove_nan_and_zeroes_from_columns, List.mem_filter] at hr
    exact (hpred r).mp hr.2
  · intro r hr hv
    rw [remove_nan_and_zeroes_from_columns, List.mem_filter]
    exact ⟨hr, (hpred r).mpr hv⟩
  · intro r hv
    exact List.count_filter ((hpred r).mpr hv)

theorem c9_record_filter_witness :
    (remove_nan_and_zeroes_from_columns c9WitnessDf).count ⟨1, 0, some 5⟩ =
      c9WitnessDf.count ⟨1, 0, some 5⟩ :=
  (c9_record_filter c9WitnessDf).2.2.2 ⟨1, 0, some 5⟩ ⟨5, rfl, by decide⟩

/-- C10: with at least one but fewer observations than the window size, the
estimator silently returns the maximum rate over all of the entity's
observations: `head(n)` truncates to the whole (sorted) list, no error is
raised (the result is not the NaN `⊥`), and nothing is padded. -/
theorem c10_short_window (df : List AnnRecord) (n : ℕ) (hne : df ≠ [])
    (hlen : df.length < n) :
    get_max_initial_production df n = (df.map (·.rate)).maximum ∧
    get_max_initial_production df n ≠ ⊥ := by
  have hperm : (sortByDate df).Perm df := List.perm_insertionSort _ df
  have hlen' : (sortByDate df).length ≤ n := by
    rw [hperm.length_eq]; exact hlen.le
  have htake : (sortByDate df).take n = sortByDate df := List.take_of_length_le hlen'
  have hmax : get_max_initial_production df n = (df.map (·.rate)).maximum := by
    rw [get_max_initial_production, htake]
    exact perm_maximum (hperm.map (·.rate))
  refine ⟨hmax, ?_⟩
  rw [hmax]
  exact List.maximum_ne_bot_of_ne_nil (by simpa using hne)

theorem c10_short_window_witness :
    get_max_initial_production c10WitnessDf 5 = (c10WitnessDf.map (·.rate)).maximum :=
  (c10_short_window c10WitnessDf 5 (by decide) (by decide)).1

/-- C8: every annotated row's `Online_Date` is the minimum `ReportDate` among
the rows sharing its API; its `Days_Online` is the whole-day difference
`ReportDate − Online_Date` (exact at day granularity, so truncation toward
zero changes nothing), hence non-negative.  The concrete scenario: an
earliest record on day 16815 (2016-01-15) and a later one on day 16845
(2016-02-14) get elapsed times 0 and 30. -/
theorem c8_anchor_and_elapsed :
    (∀ (df : List RawRecord), ∀ a ∈ annotateRecords df,
      get_min_or_max_value_in_column_by_group df a.api = (a.online : WithTop ℤ) ∧
      a.elapsed = generate_time_delta_column a.reportDate a.online ∧
      0 ≤ a.elapsed) ∧
    (annotateRecords c8ScenarioDf).map (·.elapsed) = [0, 30] := by
  constructor
  · intro df a ha
    rw [annotateRecords, List.mem_filterMap] at ha
    obtain ⟨r, hr, hmatch⟩ := ha
    rcases hrate : r.rate with _ | v <;> rw [hrate] at hmatch
    · exact absurd hmatch (by simp)
    rcases hmin : get_min_or_max_value_in_column_by_group df r.api with _ | m <;>
      rw [hmin] at hmatch
    · exact absurd hmatch (by simp)
    simp only [Option.some.injEq] at hmatch
    subst hmatch
    have hmem : r.reportDate ∈ ((df.filter fun s => decide (s.api = r.api)).map
        (·.reportDate)) :=
      List.mem_map_of_mem _ (List.mem_filter.mpr ⟨hr, by simp⟩)
    have hle : m ≤ r.reportDate := List.minimum_le_of_mem hmem hmin
    exact ⟨hmin, rfl, by simp [generate_time_delta_column]; omega⟩
  · rfl

theorem c8_anchor_and_elapsed_witness :
    get_min_or_max_value_in_column_by_group c8ScenarioDf 1 = ((16815 : ℤ) : WithTop ℤ) ∧
    (30 : ℤ) = generate_time_delta_column 16845 16815 ∧ (0 : ℤ) ≤ (30 : ℤ) :=
  c8_anchor_and_elapsed.1 c8ScenarioDf ⟨1, 16845, 90, 16815, 30⟩ (by decide)

theorem orderedInsert_congr {α : Type*} (r s : α → α → Prop)
    [DecidableRel r] [DecidableRel s] (a : α) :
    ∀ l : List α, (∀ x ∈ l, (r a x ↔ s a x)) →
      l.orderedInsert r a = l.orderedInsert s a
  | [], _ => rfl
  | b :: t, h => by
    simp only [List.orderedInsert]
    by_cases hb : r a b
    · rw [if_pos hb, if_pos ((h b (List.mem_cons_self b t)).mp hb)]
    · rw [if_neg hb, if_neg (fun hs => hb ((h b (List.mem_cons_self b t)).mpr hs)),
        orderedInsert_congr r s a t (fun x hx => h x (List.mem_cons_of_mem b hx))]

theorem insertionSort_congr {α : Type*} (r s : α → α → Prop)
    [DecidableRel r] [DecidableRel s] :
    ∀ l : List α, (∀ x ∈ l, ∀ y ∈ l, (r x y ↔ s x y)) →
      l.insertionSort r = l.insertionSort s
  | [], _ => rfl
  | a :: t, h => by
    simp only [List.insertionSort]
    rw [insertionSort_congr r s t
      (fun x hx y hy => h x (List.mem_cons_of_mem a hx) y (List.mem_cons_of_mem a hy))]
    exact orderedInsert_congr r s a _ (fun x hx =>
      h a (List.mem_cons_self a t) x
        (List.mem_cons_of_mem a ((List.perm_insertionSort s t).mem_iff.mp hx)))

/-- When every row of a per-entity window carries the same online date and
its elapsed time is the report-date delta against it (as the pipeline
constructs them), sorting by report date and sorting by elapsed time give
the same list. -/
theorem sortByDate_eq_sortByElapsed (df : List AnnRecord) (c : ℤ)
    (hc : ∀ r ∈ df, r.online = c)
    (he : ∀ r ∈ df, r.elapsed = generate_time_delta_column r.reportDate r.online) :
    sortByDate df = sortByElapsed df := by
  rw [sortByDate, sortByElapsed]
  refine insertionSort_congr (fun a b => a.reportDate ≤ b.reportDate)
    (fun a b => a.elapsed ≤ b.elapsed) df (fun x hx y hy => ?_)
  show x.reportDate ≤ y.reportDate ↔ x.elapsed ≤ y.elapsed
  have hx' : x.elapsed = x.reportDate - c := by
    rw [he x hx, generate_time_delta_column, hc x hx]
  have hy' : y.elapsed = y.reportDate - c := by
    rw [he y hy, generate_time_delta_column, hc y hy]
  rw [hx', hy']
  omega

/-- C7: the initial-rate estimator, on a non-empty per-entity window, it sorts
by elapsed time ascending (equivalently by report date, the key the code
uses), takes the first `n` rows — a count of rows, not a duration — and
returns the maximum rate among exactly those rows; the driver instantiates
it with `n = 3` and the result is the `qi` upper bound of both fits. -/
theorem c7_initial_rate_estimator (df : List AnnRecord) (c : ℤ) (n : ℕ)
    (hc : ∀ r ∈ df, r.online = c)
    (he : ∀ r ∈ df, r.elapsed = generate_time_delta_column r.reportDate r.online)
    (hne : df ≠ []) (hn : 0 < n) :
    (∃ q : ℚ, get_max_initial_production df n = (q : WithBot ℚ) ∧
      q ∈ ((sortByElapsed df).take n).map (·.rate) ∧
      ∀ x ∈ ((sortByElapsed df).take n).map (·.rate), x ≤ q) ∧
    mainQiEstimate df = get_max_initial_production df 3 ∧
    (∀ p : ℚ, mainExpUpper p 0 = (p : ℝ) ∧ mainHypUpper p 0 = (p : ℝ)) := by
  refine ⟨?_, rfl, fun p => ⟨rfl, rfl⟩⟩
  have hsort : sortByDate df = sortByElapsed df := sortByDate_eq_sortByElapsed df c hc he
  have hwne : ((sortByElapsed df).take n).map (·.rate) ≠ [] := by
    have hsne : sortByElapsed df ≠ [] := by
      intro h0
      have p := List.perm_insertionSort (fun a b : AnnRecord => a.elapsed ≤ b.elapsed) df
      unfold sortByElapsed at h0
      rw [h0] at p
      exact hne p.symm.eq_nil
    simpa using take_ne_nil_of_ne_nil hsne hn
  rcases hm : get_max_initial_production df n with _ | q
  · simp only [get_max_initial_production, hsort] at hm
    exact absurd (List.maximum_eq_bot.mp hm) hwne
  · simp only [get_max_initial_production, hsort] at hm
    have hq := List.maximum_eq_coe_iff.mp hm
    exact ⟨q, rfl, hq.1, hq.2⟩

theorem c7_initial_rate_estimator_witness :
    mainQiEstimate c7WitnessDf = get_max_initial_production c7WitnessDf 3 :=
  (c7_initial_rate_estimator c7WitnessDf 16815 3 (by decide) (by decide) (by decide)
    (by decide)).2.1

/-- C1 counterexample: refutes the claim that insufficient data yields a captured
`InsufficientDataError` that merely skips the fit: on an input whose first
listed well has a single observation, the whole pipeline terminates with
the error instead of skipping and continuing (`isOk = false`: no result
list at all); and on an entity with zero observations the initial-rate
estimate returns the NaN `⊥` silently instead of failing. -/
theorem c1_pipeline_counterexample :
    get_max_initial_production [] 3 = ⊥ ∧
    mainPipeline c1Raw = Except.error FitError.insufficientData ∧
    (mainPipeline c1Raw).isOk = false :=
  ⟨rfl, rfl, rfl⟩

/-- C1 amended: with fewer distinct elapsed-time points than the
3-parameter hyperbolic variant needs (in particular a single observation,
which already starves the 2-parameter exponential fit), the loop body's
fit fails with `InsufficientDataError`, but nothing catches it — the loop
body returns the error instead of a per-well result — and the
zero-observation initial-rate estimate returns the NaN `⊥`, not an
error. -/
theorem c1_insufficient_data_amended :
    (∀ (api : ℚ) (df : List AnnRecord), ((df.map (·.elapsed)).dedup).length < 3 →
      processWell api df = Except.error FitError.insufficientData) ∧
    get_max_initial_production [] 3 = ⊥ := by
  refine ⟨fun api df h3 => ?_, rfl⟩
  by_cases h2 : ((df.map (·.elapsed)).dedup).length < 2
  · simp [processWell, fitGuard, if_pos h2]
  · simp [processWell, fitGuard, if_neg h2, if_pos h3]

theorem c1_insufficient_data_witness :
    processWell 1 [⟨1, 16815, 100, 16815, 0⟩] = Except.error FitError.insufficientData :=
  c1_insufficient_data_amended.1 1 [⟨1, 16815, 100, 16815, 0⟩] (by decide)

/-- C3 counterexample: refutes the claim that a failed (entity, variant)
fit is captured into that pair's result and the batch continues: on `c3Raw` the
first listed well's fit fails, the pipeline returns the bare error — no
result list (`isOk = false`) — even though the second listed well's fits
would succeed on their own. -/
theorem c3_no_partial_results_counterexample :
    mainPipeline c3Raw = Except.error FitError.insufficientData ∧
    (mainPipeline c3Raw).isOk = false ∧
    processWell 33105039980000 (entitySubset c3Raw 33105039980000) =
      Except.ok ⟨33105039980000, ((100 : ℚ) : WithBot ℚ)⟩ :=
  ⟨rfl, rfl, rfl⟩

/-- C3 amended: a fit failure on the first listed well is not captured
into a per-(entity, variant) result; it propagates out of the loop and the
pipeline returns that error alone, with every other entity left
unprocessed. -/
theorem c3_failure_aborts_batch (raw : List RawRecord) (e : FitError)
    (h : processWell 33023013930000 (entitySubset raw 33023013930000) =
      Except.error e) :
    mainPipeline raw = Except.error e := by
  simp [mainPipeline, uniqueWellAPIsList, List.mapM, List.mapM.loop, h, Bind.bind,
    Except.bind]

theorem c3_failure_aborts_batch_witness :
    mainPipeline c3Raw = Except.error FitError.insufficientData :=
  c3_failure_aborts_batch c3Raw FitError.insufficientData rfl

/-- C6: the two evaluation functions compute exactly the spec's closed forms —
`qi·e^(−di·t)` and `qi/(1+b·di·t)^(1/b)` — and both return `qi` at
`t = 0`. -/
theorem c6_closed_forms (t qi b di : ℝ) (_hb : 0 < b) :
    exponential_equation t qi di = Exponential_spec t qi di ∧
    hyperbolic_equation t qi b di = Hyperbolic_spec t qi b di ∧
    exponential_equation 0 qi di = qi ∧
    hyperbolic_equation 0 qi b di = qi := by
  refine ⟨by rw [exponential_equation, Exponential_spec, neg_mul], rfl, ?_, ?_⟩
  · rw [exponential_equation, mul_zero, Real.exp_zero, mul_one]
  · rw [hyperbolic_equation, mul_zero, add_zero, Real.one_rpow, div_one]

theorem c6_closed_forms_witness :
    exponential_equation 0 2 3 = 2 :=
  (c6_closed_forms 0 2 1 3 one_pos).2.2.1

/-- C2 counterexample: refutes the claim that the configured bound box excludes
`b = 0`: the configured box for `b` is `[0, 2]` (scalar lower bound `0`
broadcast, upper bound `2`), which admits `b = 0`, and there the evaluation
`qi/(1+b·di·t)^(1/b)` performs a division by zero in the exponent
(`1.0/b` raises, so the checked evaluation has no value). -/
theorem c2_b_zero_counterexample :
    hypLower 1 ≤ (0 : ℝ) ∧ (0 : ℝ) ≤ mainHypUpper 5 1 ∧
    hyperbolic_equation_py 1 1 0 1 = none := by
  refine ⟨le_refl 0, ?_, ?_⟩
  · rw [show mainHypUpper 5 1 = 2 from rfl]
    norm_num
  · rw [hyperbolic_equation_py, pydiv, if_pos rfl]

/-- C2 amended: the box does not exclude `b = 0`, but for every
parameter value with `b > 0` (every admitted `b` other than the boundary
point `0`) and any non-negative decline rate and elapsed time, the
evaluation performs no division by zero: the checked Python evaluation
succeeds and returns the real closed form. -/
theorem c2_no_div_zero_for_positive_b (t qi b di : ℝ) (hb : 0 < b) (hdi : 0 ≤ di)
    (ht : 0 ≤ t) :
    hyperbolic_equation_py t qi b di = some (hyperbolic_equation t qi b di) := by
  have hbase : (0 : ℝ) < 1 + b * di * t := by positivity
  have hpow : (0 : ℝ) < (1 + b * di * t) ^ (1 / b) := Real.rpow_pos_of_pos hbase _
  rw [hyperbolic_equation_py, pydiv, if_neg (ne_of_gt hb)]
  show pydiv qi ((1 + b * di * t) ^ (1 / b)) = some (hyperbolic_equation t qi b di)
  rw [pydiv, if_neg (ne_of_gt hpow), hyperbolic_equation]

theorem c2_no_div_zero_witness :
    hyperbolic_equation_py 1 1 1 1 = some (hyperbolic_equation 1 1 1 1) :=
  c2_no_div_zero_for_positive_b 1 1 1 1 one_pos zero_le_one zero_le_one

theorem exponential_equation_anti (qi di : ℝ) (hqi : 0 < qi) (hdi : 0 < di)
    {t1 t2 : ℝ} (h12 : t1 ≤ t2) :
    exponential_equation t2 qi di ≤ exponential_equation t1 qi di := by
  rw [exponential_equation, exponential_equation]
  have : Real.exp (-di * t2) ≤ Real.exp (-di * t1) := by
    rw [Real.exp_le_exp]
    nlinarith
  exact mul_le_mul_of_nonneg_left this hqi.le

theorem hyperbolic_equation_anti (qi b di : ℝ) (hqi : 0 < qi) (hb : 0 < b)
    (hdi : 0 < di) {t1 t2 : ℝ} (h0 : 0 ≤ t1) (h12 : t1 ≤ t2) :
    hyperbolic_equation t2 qi b di ≤ hyperbolic_equation t1 qi b di := by
  rw [hyperbolic_equation, hyperbolic_equation]
  have hb1 : (0 : ℝ) < 1 + b * di * t1 := by positivity
  have hb2 : (0 : ℝ) < 1 + b * di * t2 := by
    nlinarith [mul_nonneg (mul_nonneg hb.le hdi.le) (h0.trans h12)]
  have hle : 1 + b * di * t1 ≤ 1 + b * di * t2 := by
    nlinarith [mul_nonneg (mul_nonneg hb.le hdi.le) (sub_nonneg.mpr h12)]
  have hp1 : (0 : ℝ) < (1 + b * di * t1) ^ (1 / b) := Real.rpow_pos_of_pos hb1 _
  have hp2 : (0 : ℝ) < (1 + b * di * t2) ^ (1 / b) := Real.rpow_pos_of_pos hb2 _
  have hpow : (1 + b * di * t1) ^ (1 / b) ≤ (1 + b * di * t2) ^ (1 / b) :=
    Real.rpow_le_rpow hb1.le hle (by positivity)
  exact (div_le_div_iff_of_pos_left hqi hp2 hp1).mpr hpow

theorem sorted_map_of_antitone {f : ℝ → ℝ}
    (hf : ∀ a b : ℝ, 0 ≤ a → a ≤ b → f b ≤ f a) (ts : List ℝ)
    (h0 : ∀ t ∈ ts, 0 ≤ t) (hs : ts.Sorted (· ≤ ·)) :
    (ts.map f).Sorted (· ≥ ·) := by
  rw [List.Sorted, List.pairwise_map]
  exact hs.imp_of_mem fun ha _ hab => hf _ _ (h0 _ ha) hab

/-- C5: for positive `qi`, `di` (and `b` for the hyperbolic variant), both model
evaluations are non-increasing in elapsed time over `t ≥ 0`, and therefore
the predicted series over any ascending list of non-negative elapsed times
is non-increasing. -/
theorem c5_monotone_decline (qi b di : ℝ) (hqi : 0 < qi) (hb : 0 < b) (hdi : 0 < di) :
    (∀ t1 t2 : ℝ, 0 ≤ t1 → t1 ≤ t2 →
      exponential_equation t2 qi di ≤ exponential_equation t1 qi di) ∧
    (∀ t1 t2 : ℝ, 0 ≤ t1 → t1 ≤ t2 →
      hyperbolic_equation t2 qi b di ≤ hyperbolic_equation t1 qi b di) ∧
    (∀ ts : List ℝ, (∀ t ∈ ts, 0 ≤ t) → ts.Sorted (· ≤ ·) →
      (ts.map fun t => exponential_equation t qi di).Sorted (· ≥ ·) ∧
      (ts.map fun t => hyperbolic_equation t qi b di).Sorted (· ≥ ·)) := by
  refine ⟨fun t1 t2 _ h12 => exponential_equation_anti qi di hqi hdi h12,
    fun t1 t2 h0 h12 => hyperbolic_equation_anti qi b di hqi hb hdi h0 h12,
    fun ts h0 hs => ⟨?_, ?_⟩⟩
  · exact sorted_map_of_antitone
      (fun a c ha hac => exponential_equation_anti qi di hqi hdi hac) ts h0 hs
  · exact sorted_map_of_antitone
      (fun a c ha hac => hyperbolic_equation_anti qi b di hqi hb hdi ha hac) ts h0 hs

theorem c5_monotone_decline_witness :
    exponential_equation 1 1 1 ≤ exponential_equation 0 1 1 ∧
    hyperbolic_equation 1 1 1 1 ≤ hyperbolic_equation 0 1 1 1 :=
  ⟨(c5_monotone_decline 1 1 1 one_pos one_pos one_pos).1 0 1 (le_refl 0) zero_le_one,
   (c5_monotone_decline 1 1 1 one_pos one_pos one_pos).2.1 0 1 (le_refl 0) zero_le_one⟩

theorem clip_mem {lo hi : ℝ} (h : lo ≤ hi) (x : ℝ) :
    lo ≤ clip lo hi x ∧ clip lo hi x ≤ hi := by
  rw [clip]
  exact ⟨le_max_left lo (min x hi), max_le h (min_le_right x hi)⟩

theorem foldl_clip_steps_mem {k : ℕ} (lo hi : Fin k → ℝ) (h : ∀ i, lo i ≤ hi i) :
    ∀ (steps : List ((Fin k → ℝ) × Bool)) (p : Fin k → ℝ),
      (∀ i, lo i ≤ p i ∧ p i ≤ hi i) →
      ∀ i,
        lo i ≤ (steps.foldl
          (fun p s => if s.2 then (fun i => clip (lo i) (hi i) (p i + s.1 i)) else p) p) i ∧
        (steps.foldl
          (fun p s => if s.2 then (fun i => clip (lo i) (hi i) (p i + s.1 i)) else p) p) i ≤ hi i
  | [], p, hp => hp
  | s :: rest, p, hp => by
    rw [List.foldl_cons]
    by_cases hs : s.2 = true
    · rw [if_pos hs]
      exact foldl_clip_steps_mem lo hi h rest _ (fun i => clip_mem (h i) (p i + s.1 i))
    · rw [if_neg hs]
      exact foldl_clip_steps_mem lo hi h rest p hp

theorem lmIterate_mem_box {k : ℕ} (lo hi : Fin k → ℝ) (h : ∀ i, lo i ≤ hi i)
    (steps : List ((Fin k → ℝ) × Bool)) (p0 : Fin k → ℝ) :
    ∀ i, lo i ≤ lmIterate lo hi steps p0 i ∧ lmIterate lo hi steps p0 i ≤ hi i := by
  rw [lmIterate]
  exact foldl_clip_steps_mem lo hi h steps _ (fun i => clip_mem (h i) (p0 i))

/-- C4: every returned parameter vector lies inclusively inside its declared
bound box, whatever data (hence whatever proposed steps and accept/reject
outcomes) drove the solve: for the exponential fit `0 ≤ qi ≤ estimate` and
`0 ≤ di ≤ 20`; for the hyperbolic fit additionally `0 ≤ b ≤ 2`. -/
theorem c4_bounds_invariant (q : ℚ) (hq : 0 ≤ q)
    (steps₂ : List ((Fin 2 → ℝ) × Bool)) (p₂ : Fin 2 → ℝ)
    (steps₃ : List ((Fin 3 → ℝ) × Bool)) (p₃ : Fin 3 → ℝ) :
    (∀ i, expLower i ≤ lmIterate expLower (mainExpUpper q) steps₂ p₂ i ∧
      lmIterate expLower (mainExpUpper q) steps₂ p₂ i ≤ mainExpUpper q i) ∧
    (∀ i, hypLower i ≤ lmIterate hypLower (mainHypUpper q) steps₃ p₃ i ∧
      lmIterate hypLower (mainHypUpper q) steps₃ p₃ i ≤ mainHypUpper q i) := by
  constructor
  · refine lmIterate_mem_box expLower (mainExpUpper q) (fun i => ?_) steps₂ p₂
    fin_cases i <;> simp [expLower, mainExpUpper]
    exact hq
  · refine lmIterate_mem_box hypLower (mainHypUpper q) (fun i => ?_) steps₃ p₃
    fin_cases i <;> simp [hypLower, mainHypUpper]
    exact hq

theorem c4_bounds_invariant_witness :
    expLower 0 ≤ lmIterate expLower (mainExpUpper 5) [] (fun _ => 0) 0 ∧
    lmIterate expLower (mainExpUpper 5) [] (fun _ => 0) 0 ≤ mainExpUpper 5 0 :=
  (c4_bounds_invariant 5 (by decide) [] (fun _ => 0) [] (fun _ => 0)).1 0
